import Mathlib

/-!
Verification development for the math-problem-generator web application.

The grading pipeline (`app/api/submit/route.ts`), the problem-generation
orchestrator (`app/api/generate/route.ts`), the hint route
(`app/api/hint/route.ts`) and the `problem_text` prefix readers
(`app/sessions/page.tsx`, history pages) are shallowly embedded below.

Modelling conventions:
* JavaScript numbers are modelled as exact rationals (`ℚ`); the arithmetic
  appearing in the grading classifier and in `round2` is carried out exactly.
* Strings are modelled as Lean `String`/`List Char`; the regular expressions
  of `parseNumericOrFraction` and the fence-stripping of `extractJson` are
  implemented as deterministic character-level parsers (the regexes involved
  have disjoint character classes, so greedy matching is deterministic).
* Host primitives (the Gemini provider, `JSON.parse`, `Math.random`, the
  Supabase store) are environment parameters: the provider is a function from
  (model, prompt, jsonMode) to a thrown error or a returned text, `JSON.parse`
  is a function from strings to an optional parsed object, and each
  `Math.random()` call site reads its own environment field.
-/

namespace MPG

/-- JS regex `\d` / the digits accepted by `Number` for integer parts. -/
def isDigit (c : Char) : Bool := '0' ≤ c && c ≤ '9'

/-- ASCII whitespace recognised by JS `\s`, `String.prototype.trim` and
`Number` (the sources only ever meet ASCII whitespace). -/
def isWS (c : Char) : Bool :=
  c = ' ' || c = '\t' || c = '\n' || c = '\r' || c = '\x0b' || c = '\x0c'

/-- `String.prototype.trim`, on character lists. -/
def trimChars (l : List Char) : List Char :=
  ((l.dropWhile isWS).reverse.dropWhile isWS).reverse

/-- `String.prototype.trim`. -/
def jsTrim (s : String) : String := ⟨trimChars s.data⟩

/-- Numeric value of a digit string (`Number` on a matched `\d+` group,
exact; JS would overflow to a float approximation only far outside the
values exercised here). -/
def digitsToNat (l : List Char) : ℕ :=
  l.foldl (fun a c => 10 * a + (c.toNat - 48)) 0

/-- Matches one-or-more digits at the front (`\d+`, greedy), returning the
digit block and the rest. -/
def digits1 (l : List Char) : Option (List Char × List Char) :=
  match l.takeWhile isDigit with
  | [] => none
  | ds => some (ds, l.dropWhile isDigit)

end MPG

namespace MPG.Submit

/-! ## `app/api/submit/route.ts` -/

/-- Part of the mixed-number regex after the optional sign:
`\d+\s+\d+\s*\/\s*\d+$`, with the sign already decoded into `sgn`. -/
def matchMixedBody (sgn : ℤ) (l1 : List Char) : Option (ℤ × ℕ × ℕ) :=
  match digits1 l1 with
  | none => none
  | some (ws, l2) =>
    match l2 with
    | c :: l3 =>
      if isWS c then
        match digits1 (l3.dropWhile isWS) with
        | none => none
        | some (ns, l4) =>
          match l4.dropWhile isWS with
          | '/' :: l5 =>
            match digits1 (l5.dropWhile isWS) with
            | some (ds, []) => some (sgn * digitsToNat ws, digitsToNat ns, digitsToNat ds)
            | _ => none
          | _ => none
      else none
    | [] => none

/-- Result of the regex `^([+-]?\d+)\s+(\d+)\s*\/\s*(\d+)$` (mixed number
`a b/c`): the signed whole part as an integer (`Number(mixed[1])`) and the
numerator/denominator (`Number(mixed[2])`, `Number(mixed[3])`). -/
def matchMixed (l : List Char) : Option (ℤ × ℕ × ℕ) :=
  match l with
  | c :: r =>
    if c = '+' then matchMixedBody 1 r
    else if c = '-' then matchMixedBody (-1) r
    else matchMixedBody 1 (c :: r)
  | [] => matchMixedBody 1 []

/-- Result of the regex `^([+-]?\d+)\s*\/\s*([+-]?\d+)$` (simple fraction
`a/b`): signed numerator and signed denominator. -/
def matchFrac (l : List Char) : Option (ℤ × ℤ) :=
  let (sgn, l1) : ℤ × List Char :=
    match l with
    | '+' :: r => (1, r)
    | '-' :: r => (-1, r)
    | _ => (1, l)
  match digits1 l1 with
  | none => none
  | some (ns, l2) =>
    match l2.dropWhile isWS with
    | '/' :: l3 =>
      let l4 := l3.dropWhile isWS
      let (sgn2, l5) : ℤ × List Char :=
        match l4 with
        | '+' :: r => (1, r)
        | '-' :: r => (-1, r)
        | _ => (1, l4)
      match digits1 l5 with
      | some (ds, []) => some (sgn * digitsToNat ns, sgn2 * digitsToNat ds)
      | _ => none
    | _ => none

/-- Exponent suffix of a JS decimal literal: empty, or `(e|E)[+-]?\d+`
consuming the whole rest. -/
def parseExp (l : List Char) : Option ℤ :=
  match l with
  | [] => some 0
  | c :: r =>
    if c = 'e' || c = 'E' then
      let (sgn, r1) : ℤ × List Char :=
        match r with
        | '+' :: r2 => (1, r2)
        | '-' :: r2 => (-1, r2)
        | _ => (1, r)
      match digits1 r1 with
      | some (ds, []) => some (sgn * digitsToNat ds)
      | _ => none
    else none

/-- Scales a rational by a signed power of ten (`m * 10^e`). -/
def scalePow10 (m : ℚ) (e : ℤ) : ℚ :=
  if 0 ≤ e then m * 10 ^ e.toNat else m / 10 ^ (-e).toNat

/-- Unsigned decimal part of a JS numeric string:
`\d+(\.\d*)?([eE][+-]?\d+)?` or `\.\d+([eE][+-]?\d+)?`, consuming all input. -/
def parseDecBody (l : List Char) : Option ℚ :=
  let ip := l.takeWhile isDigit
  match l.dropWhile isDigit with
  | '.' :: r =>
    let fp := r.takeWhile isDigit
    if ip = [] && fp = [] then none
    else
      match parseExp (r.dropWhile isDigit) with
      | some e => some (scalePow10 ((digitsToNat ip : ℚ) + (digitsToNat fp : ℚ) / 10 ^ fp.length) e)
      | none => none
  | rest =>
    if ip = [] then none
    else
      match parseExp rest with
      | some e => some (scalePow10 (digitsToNat ip : ℚ) e)
      | none => none

/-- `c` as a hexadecimal digit, if it is one. -/
def hexVal (c : Char) : Option ℕ :=
  if '0' ≤ c && c ≤ '9' then some (c.toNat - 48)
  else if 'a' ≤ c && c ≤ 'f' then some (c.toNat - 87)
  else if 'A' ≤ c && c ≤ 'F' then some (c.toNat - 55)
  else none

/-- Digits of a radix-`b` JS literal (`0x…`/`0o…`/`0b…` bodies), all of the
input, at least one digit. -/
def radixDigits (b : ℕ) (l : List Char) : Option ℕ :=
  match l with
  | [] => none
  | _ =>
    l.foldl (fun acc c =>
      match acc, hexVal c with
      | some a, some v => if v < b then some (b * a + v) else none
      | _, _ => none) (some 0)

/-- `Number(s)` on an already-trimmed string, restricted to finite results:
`none` stands for `NaN` and for `±Infinity` (both rejected by the
`Number.isFinite` guard in the source). The empty string converts to `0`;
`0x`/`0o`/`0b` literals are accepted only unsigned, as in JS. -/
def jsNumber (l : List Char) : Option ℚ :=
  match l with
  | [] => some 0
  | '0' :: x :: r =>
    if x = 'x' || x = 'X' then (radixDigits 16 r).map (fun n => (n : ℚ))
    else if x = 'o' || x = 'O' then (radixDigits 8 r).map (fun n => (n : ℚ))
    else if x = 'b' || x = 'B' then (radixDigits 2 r).map (fun n => (n : ℚ))
    else parseDecBody l
  | '+' :: r => if r = "Infinity".data then none else parseDecBody r
  | '-' :: r => if r = "Infinity".data then none else (parseDecBody r).map (fun q => -q)
  | _ => if l = "Infinity".data then none else parseDecBody l

/-- `parseNumericOrFraction` (submit route, lines 14–40): trims, tries the
mixed-number regex, then the simple-fraction regex, then `Number`.
A zero denominator yields `null` (`none`); the `Number.isFinite`
guards on regex-captured digit groups are vacuous in the exact model. -/
def parseNumericOrFraction (input : String) : Option ℚ :=
  let s := trimChars input.data
  match matchMixed s with
  | some (whole, num, den) =>
    if den = 0 then none
    else some ((whole : ℚ) + (if (0:ℚ) ≤ (whole : ℚ) then 1 else -1) * ((num : ℚ) / (den : ℚ)))
  | none =>
    match matchFrac s with
    | some (num, den) =>
      if den = 0 then none else some ((num : ℚ) / (den : ℚ))
    | none => jsNumber s

/-- `round2` (submit route): `Math.round(x * 100) / 100`, with JS
`Math.round` rounding half toward `+∞`. -/
def round2 (x : ℚ) : ℚ := (⌊x * 100 + 1/2⌋ : ℚ) / 100

/-- Tolerance `EPS = 1e-6` of the submit route. -/
def EPS : ℚ := 1 / 1000000

/-- Outcome band of the grading classifier. -/
inductive Band | correct | near | wrong
deriving DecidableEq, Repr

/-- `absDiff = Math.abs(parsed - correct)`. -/
def absDiff (parsed correct : ℚ) : ℚ := |parsed - correct|

/-- `relDiff = correct !== 0 ? absDiff / Math.abs(correct) : absDiff`. -/
def relDiff (parsed correct : ℚ) : ℚ :=
  if correct ≠ 0 then absDiff parsed correct / |correct| else absDiff parsed correct

/-- `isCorrect = absDiff <= EPS`. -/
def isCorrect (parsed correct : ℚ) : Bool := absDiff parsed correct ≤ EPS

/-- `isNear = !isCorrect && (relDiff <= 0.05 || absDiff <= 0.5)`. -/
def isNear (parsed correct : ℚ) : Bool :=
  !isCorrect parsed correct &&
    (relDiff parsed correct ≤ 5/100 || absDiff parsed correct ≤ 1/2)

/-- `band = isCorrect ? 'correct' : isNear ? 'near' : 'wrong'`. -/
def band (parsed correct : ℚ) : Band :=
  if isCorrect parsed correct then .correct
  else if isNear parsed correct then .near else .wrong

/-- A persisted `math_problem_submissions` row. -/
structure Submission where
  session_id : String
  user_answer : ℚ
  is_correct : Bool
  feedback_text : String
deriving Repr, DecidableEq

/-- Response body of a successful `POST /submit`. -/
structure SubmitResponse where
  is_correct : Bool
  band : Band
  normalized_user_answer : ℚ
deriving Repr, DecidableEq

/-- Outcome of the grading-and-persistence part of the submit route for a
session with the given stored `correct_answer` (lines 174–241): `none` is
the 400 response on an unparseable answer; otherwise the inserted
submission row and the JSON response. The AI feedback text is a host input
(`feedback`), appended to by the solution text exactly as in the source
only for the stored `feedback_text`, which no claim constrains. -/
def postSubmit (sessionId : String) (correctAnswer : ℚ) (userAnswer : String)
    (feedback : String) : Option (Submission × SubmitResponse) :=
  match parseNumericOrFraction userAnswer with
  | none => none
  | some parsed =>
    let userForSaving := round2 parsed
    let isC := isCorrect parsed correctAnswer
    some ({ session_id := sessionId
            user_answer := userForSaving
            is_correct := isC
            feedback_text := feedback },
          { is_correct := isC
            band := band parsed correctAnswer
            normalized_user_answer := userForSaving })


namespace MPG.Submit

/-! ## Grading-classifier characterizations -/

lemma band_eq_correct_iff (a c : ℚ) :
    band a c = .correct ↔ absDiff a c ≤ EPS := by
  unfold band isNear isCorrect
  by_cases h1 : absDiff a c ≤ EPS <;>
    by_cases h2 : relDiff a c ≤ 5/100 <;>
      by_cases h3 : absDiff a c ≤ 1/2 <;>
        simp [h1, h2, h3, -one_div]

lemma band_eq_near_iff (a c : ℚ) :
    band a c = .near ↔
      ¬ absDiff a c ≤ EPS ∧ (relDiff a c ≤ 5/100 ∨ absDiff a c ≤ 1/2) := by
  unfold band isNear isCorrect
  by_cases h1 : absDiff a c ≤ EPS <;>
    by_cases h2 : relDiff a c ≤ 5/100 <;>
      by_cases h3 : absDiff a c ≤ 1/2 <;>
        simp [h1, h2, h3, -one_div]

lemma band_eq_wrong_iff (a c : ℚ) :
    band a c = .wrong ↔
      ¬ absDiff a c ≤ EPS ∧ ¬ (relDiff a c ≤ 5/100 ∨ absDiff a c ≤ 1/2) := by
  unfold band isNear isCorrect
  by_cases h1 : absDiff a c ≤ EPS <;>
    by_cases h2 : relDiff a c ≤ 5/100 <;>
      by_cases h3 : absDiff a c ≤ 1/2 <;>
        simp [h1, h2, h3, -one_div]

lemma relDiff_of_ne (a c : ℚ) (hc : c ≠ 0) :
    relDiff a c = absDiff a c / |c| := by
  unfold relDiff
  rw [if_pos hc]

lemma absDiff_eq (a c d : ℚ) (h : a - c = d ∨ a - c = -d) (hd : 0 ≤ d) :
    absDiff a c = d := by
  unfold absDiff
  rcases h with h | h
  · rw [h]
    exact abs_of_nonneg hd
  · rw [h, abs_neg]
    exact abs_of_nonneg hd

lemma band_ex_10_10 : band 10 10 = .correct := by
  rw [band_eq_correct_iff, absDiff_eq 10 10 0 (Or.inl (by norm_num)) le_rfl]
  norm_num [EPS]

lemma band_ex_103_10 : band (103/10) 10 = .near := by
  have h : absDiff (103/10) 10 = 3/10 :=
    absDiff_eq _ _ _ (Or.inl (by norm_num)) (by norm_num)
  rw [band_eq_near_iff, relDiff_of_ne _ _ (by norm_num), h,
    abs_of_nonneg (by norm_num : (0:ℚ) ≤ 10)]
  norm_num [EPS]

lemma band_ex_96_100 : band 96 100 = .near := by
  have h : absDiff 96 100 = 4 :=
    absDiff_eq _ _ _ (Or.inr (by norm_num)) (by norm_num)
  rw [band_eq_near_iff, relDiff_of_ne _ _ (by norm_num), h,
    abs_of_nonneg (by norm_num : (0:ℚ) ≤ 100)]
  norm_num [EPS]

lemma band_ex_11_10 : band 11 10 = .wrong := by
  have h : absDiff 11 10 = 1 :=
    absDiff_eq _ _ _ (Or.inl (by norm_num)) (by norm_num)
  rw [band_eq_wrong_iff, relDiff_of_ne _ _ (by norm_num), h,
    abs_of_nonneg (by norm_num : (0:ℚ) ≤ 10)]
  norm_num [EPS]

lemma band_ex_94_100 : band 94 100 = .wrong := by
  have h : absDiff 94 100 = 6 :=
    absDiff_eq _ _ _ (Or.inr (by norm_num)) (by norm_num)
  rw [band_eq_wrong_iff, relDiff_of_ne _ _ (by norm_num), h,
    abs_of_nonneg (by norm_num : (0:ℚ) ≤ 100)]
  norm_num [EPS]

end MPG.Submit

namespace MPG.Claims

open MPG.Submit

/-- C1: for every parsed answer `a` and stored correct answer `c` (nonzero,
so that the relative difference `|a-c|/|c|` is the quantity the code
computes; the `c = 0` case is settled separately), the band is `correct`
exactly when `|a-c| ≤ 1e-6`, otherwise `near` exactly when
`|a-c|/|c| ≤ 0.05` or `|a-c| ≤ 0.5`, otherwise `wrong`; and concretely
(c=10,a=10) is `correct`, (c=10,a=10.3) and (c=100,a=96) are `near`,
(c=10,a=11) and (c=100,a=94) are `wrong`. -/
theorem grading_band_characterization (a c : ℚ) (hc : c ≠ 0) :
    ((band a c = .correct ↔ |a - c| ≤ 1/1000000) ∧
     (band a c = .near ↔
        ¬ |a - c| ≤ 1/1000000 ∧ (|a - c| / |c| ≤ 5/100 ∨ |a - c| ≤ 1/2)) ∧
     (band a c = .wrong ↔
        ¬ |a - c| ≤ 1/1000000 ∧ ¬ (|a - c| / |c| ≤ 5/100 ∨ |a - c| ≤ 1/2))) ∧
    band 10 10 = .correct ∧ band (103/10) 10 = .near ∧ band 96 100 = .near ∧
    band 11 10 = .wrong ∧ band 94 100 = .wrong := by
  refine ⟨⟨?_, ?_, ?_⟩, band_ex_10_10, band_ex_103_10, band_ex_96_100,
    band_ex_11_10, band_ex_94_100⟩
  · simpa [absDiff, EPS] using band_eq_correct_iff a c
  · simpa [absDiff, EPS, relDiff_of_ne a c hc] using band_eq_near_iff a c
  · simpa [absDiff, EPS, relDiff_of_ne a c hc] using band_eq_wrong_iff a c

/-- Witness for C1 at `a = 10.3`, `c = 10`. -/
theorem grading_band_characterization_witness :
    ((band (103/10) 10 = .correct ↔ |(103/10 : ℚ) - 10| ≤ 1/1000000) ∧
     (band (103/10) 10 = .near ↔
        ¬ |(103/10 : ℚ) - 10| ≤ 1/1000000 ∧
          (|(103/10 : ℚ) - 10| / |(10 : ℚ)| ≤ 5/100 ∨ |(103/10 : ℚ) - 10| ≤ 1/2)) ∧
     (band (103/10) 10 = .wrong ↔
        ¬ |(103/10 : ℚ) - 10| ≤ 1/1000000 ∧
          ¬ (|(103/10 : ℚ) - 10| / |(10 : ℚ)| ≤ 5/100 ∨ |(103/10 : ℚ) - 10| ≤ 1/2))) ∧
    band 10 10 = .correct ∧ band (103/10) 10 = .near ∧ band 96 100 = .near ∧
    band 11 10 = .wrong ∧ band 94 100 = .wrong :=
  grading_band_characterization (103/10) 10 (by norm_num)

/-- C9: when the stored correct answer is exactly `0`, the classifier
substitutes the absolute difference for the relative difference, so the
band is `correct` iff `|a| ≤ 1e-6`, `near` iff `1e-6 < |a| ≤ 0.5`, and
`wrong` iff `0.5 < |a|`; the `0.05` relative threshold never contributes. -/
theorem grading_band_zero_correct (a : ℚ) :
    (band a 0 = .correct ↔ |a| ≤ 1/1000000) ∧
    (band a 0 = .near ↔ 1/1000000 < |a| ∧ |a| ≤ 1/2) ∧
    (band a 0 = .wrong ↔ 1/2 < |a|) := by
  have habs : absDiff a 0 = |a| := by
    unfold absDiff
    rw [sub_zero]
  have hrel : relDiff a 0 = |a| := by
    unfold relDiff
    rw [if_neg (by norm_num), habs]
  refine ⟨?_, ?_, ?_⟩
  · rw [band_eq_correct_iff, habs]
    unfold EPS
    rfl
  · rw [band_eq_near_iff, habs, hrel]
    unfold EPS
    constructor
    · rintro ⟨h1, h2 | h2⟩
      · exact ⟨not_le.mp h1, h2.trans (by norm_num)⟩
      · exact ⟨not_le.mp h1, h2⟩
    · rintro ⟨h1, h2⟩
      exact ⟨not_le.mpr h1, Or.inr h2⟩
  · rw [band_eq_wrong_iff, habs, hrel]
    unfold EPS
    constructor
    · rintro ⟨h1, h2⟩
      push_neg at h2
      exact h2.2
    · rintro h
      refine ⟨not_le.mpr (lt_of_le_of_lt (by norm_num) h), ?_⟩
      push_neg
      exact ⟨lt_of_le_of_lt (by norm_num) h, h⟩

/-- C3: for every successful submit of a parseable answer, the persisted
submission's `user_answer` is `Math.round(parsed*100)/100` while its
`is_correct` flag is the tolerance test `|parsed - correct| ≤ 1e-6` on the
unrounded parsed value; re-reading the stored `user_answer` yields exactly
the parsed value rounded to 2 decimals (`round2 parsed`). -/
theorem submit_persists_rounded_grades_exact (sid : String) (c : ℚ)
    (ua fb : String) (parsed : ℚ)
    (h : parseNumericOrFraction ua = some parsed) :
    ∃ sub resp, postSubmit sid c ua fb = some (sub, resp) ∧
      sub.user_answer = (⌊parsed * 100 + 1/2⌋ : ℚ) / 100 ∧
      sub.user_answer = round2 parsed ∧
      (sub.is_correct = true ↔ |parsed - c| ≤ 1/1000000) ∧
      resp.normalized_user_answer = sub.user_answer := by
  unfold postSubmit
  rw [h]
  refine ⟨_, _, rfl, rfl, rfl, ?_, rfl⟩
  simp [isCorrect, absDiff, EPS]

lemma parse_2505 : parseNumericOrFraction "2.505" = some (501/200) := by
  have h1 : parseNumericOrFraction "2.505" =
      some (scalePow10 (((digitsToNat ['2'] : ℕ) : ℚ) +
        ((digitsToNat ['5','0','5'] : ℕ) : ℚ) / 10 ^ (3:ℕ)) 0) := rfl
  rw [h1, show digitsToNat ['2'] = 2 from rfl,
    show digitsToNat ['5','0','5'] = 505 from rfl]
  norm_num [scalePow10]

/-- Witness for C3: `"2.505"` parses to `2.505`, is stored as `2.51`, and
grades against correct answer `2.51` as not correct
(difference `0.005 > 1e-6`). -/
theorem submit_persists_rounded_grades_exact_witness :
    ∃ sub resp, postSubmit "s1" (251/100) "2.505" "fb" = some (sub, resp) ∧
      sub.user_answer = (⌊(501/200 : ℚ) * 100 + 1/2⌋ : ℚ) / 100 ∧
      sub.user_answer = round2 (501/200) ∧
      (sub.is_correct = true ↔ |(501/200 : ℚ) - 251/100| ≤ 1/1000000) ∧
      resp.normalized_user_answer = sub.user_answer :=
  submit_persists_rounded_grades_exact "s1" (251/100) "2.505" "fb" (501/200)
    parse_2505

end MPG.Claims

namespace MPG

/-! ## Character-list lemmas for the regex parsers -/

lemma not_isWS_of_isDigit {c : Char} (h : isDigit c = true) : isWS c = false := by
  unfold isDigit at h
  rw [Bool.and_eq_true, decide_eq_true_eq, decide_eq_true_eq] at h
  obtain ⟨h1, _⟩ := h
  unfold isWS
  simp only [Bool.or_eq_false_iff, decide_eq_false_iff_not]
  refine ⟨⟨⟨⟨⟨fun hc => ?_, fun hc => ?_⟩, fun hc => ?_⟩, fun hc => ?_⟩,
    fun hc => ?_⟩, fun hc => ?_⟩ <;> (subst hc; exact absurd h1 (by decide))

lemma takeWhile_append_cons (p : Char → Bool) (l : List Char) (x : Char)
    (r : List Char) (hl : ∀ c ∈ l, p c = true) (hx : p x = false) :
    (l ++ x :: r).takeWhile p = l := by
  induction l with
  | nil => simp [List.takeWhile_cons, hx]
  | cons a t ih =>
    simp only [List.cons_append, List.takeWhile_cons, hl a (by simp), if_true]
    rw [ih (fun c hc => hl c (by simp [hc]))]

lemma dropWhile_append_cons (p : Char → Bool) (l : List Char) (x : Char)
    (r : List Char) (hl : ∀ c ∈ l, p c = true) (hx : p x = false) :
    (l ++ x :: r).dropWhile p = x :: r := by
  induction l with
  | nil => simp [List.dropWhile_cons, hx]
  | cons a t ih =>
    simp only [List.cons_append, List.dropWhile_cons, hl a (by simp), if_true]
    exact ih (fun c hc => hl c (by simp [hc]))

lemma dropWhile_cons_of_neg (p : Char → Bool) (x : Char) (r : List Char)
    (hx : p x = false) : (x :: r).dropWhile p = x :: r := by
  simp [List.dropWhile_cons, hx]

lemma dropWhile_ws_append (pre l : List Char) (h : ∀ c ∈ pre, isWS c = true) :
    (pre ++ l).dropWhile isWS = l.dropWhile isWS := by
  induction pre with
  | nil => rfl
  | cons a t ih =>
    simp only [List.cons_append, List.dropWhile_cons, h a (by simp), if_true]
    exact ih (fun c hc => h c (by simp [hc]))

lemma dropWhile_append_of_ne_nil (p : Char → Bool) (l m : List Char)
    (h : l.dropWhile p ≠ []) : (l ++ m).dropWhile p = l.dropWhile p ++ m := by
  induction l with
  | nil => exact absurd rfl h
  | cons a t ih =>
    by_cases hp : p a
    · rw [List.cons_append, List.dropWhile_cons, if_pos hp,
        List.dropWhile_cons, if_pos hp]
      exact ih (by rwa [List.dropWhile_cons, if_pos hp] at h)
    · rw [List.cons_append, List.dropWhile_cons, if_neg hp,
        List.dropWhile_cons, if_neg hp, List.cons_append]

lemma trimChars_eq_self (l : List Char)
    (h1 : ∀ c, l.head? = some c → isWS c = false)
    (h2 : ∀ c, l.getLast? = some c → isWS c = false) :
    trimChars l = l := by
  unfold trimChars
  have e1 : l.dropWhile isWS = l := by
    cases l with
    | nil => rfl
    | cons a t => exact dropWhile_cons_of_neg _ _ _ (h1 a rfl)
  rw [e1]
  have e2 : l.reverse.dropWhile isWS = l.reverse := by
    cases hl : l.reverse with
    | nil => rfl
    | cons a t =>
      have ha : l.getLast? = some a := by
        rw [← List.head?_reverse, hl]
        rfl
      exact dropWhile_cons_of_neg _ _ _ (h2 a ha)
  rw [e2, List.reverse_reverse]

lemma trimChars_ws_pre (pre l : List Char) (h : ∀ c ∈ pre, isWS c = true) :
    trimChars (pre ++ l) = trimChars l := by
  unfold trimChars
  rw [dropWhile_ws_append pre l h]

lemma trimChars_ws_suf (l post : List Char) (h : ∀ c ∈ post, isWS c = true) :
    trimChars (l ++ post) = trimChars l := by
  unfold trimChars
  by_cases hl : l.dropWhile isWS = []
  · have hall : ∀ c ∈ l ++ post, isWS c = true := by
      intro c hc
      rcases List.mem_append.mp hc with hc | hc
      · exact List.dropWhile_eq_nil_iff.mp hl c hc
      · exact h c hc
    rw [hl, List.dropWhile_eq_nil_iff.mpr hall]
  · rw [dropWhile_append_of_ne_nil _ _ _ hl, List.reverse_append,
      dropWhile_ws_append post.reverse _
        (fun c hc => h c (List.mem_reverse.mp hc))]

lemma digits1_append (ds : List Char) (x : Char) (r : List Char)
    (hds : ∀ c ∈ ds, isDigit c = true) (h0 : ds ≠ []) (hx : isDigit x = false) :
    digits1 (ds ++ x :: r) = some (ds, x :: r) := by
  obtain ⟨a, t, rfl⟩ := List.exists_cons_of_ne_nil h0
  unfold digits1
  rw [takeWhile_append_cons _ _ _ _ hds hx, dropWhile_append_cons _ _ _ _ hds hx]

lemma digits1_all (ds : List Char) (hds : ∀ c ∈ ds, isDigit c = true)
    (h0 : ds ≠ []) : digits1 ds = some (ds, []) := by
  obtain ⟨a, t, rfl⟩ := List.exists_cons_of_ne_nil h0
  unfold digits1
  rw [List.takeWhile_eq_self_iff.mpr hds, List.dropWhile_eq_nil_iff.mpr hds]

end MPG

namespace MPG.Submit

/-! ## Evaluation lemmas for the answer normalizer -/

lemma matchMixedBody_eval (sgn : ℤ) (ws ns ds : List Char)
    (hws : ∀ c ∈ ws, isDigit c = true) (hws0 : ws ≠ [])
    (hns : ∀ c ∈ ns, isDigit c = true) (hns0 : ns ≠ [])
    (hds : ∀ c ∈ ds, isDigit c = true) (hds0 : ds ≠ []) :
    matchMixedBody sgn (ws ++ (' ' :: (ns ++ ('/' :: ds)))) =
      some (sgn * digitsToNat ws, digitsToNat ns, digitsToNat ds) := by
  have e1 : digits1 (ws ++ (' ' :: (ns ++ ('/' :: ds)))) =
      some (ws, ' ' :: (ns ++ ('/' :: ds))) :=
    digits1_append _ _ _ hws hws0 (by rfl)
  have e2 : (ns ++ ('/' :: ds)).dropWhile isWS = ns ++ ('/' :: ds) := by
    obtain ⟨a, t, rfl⟩ := List.exists_cons_of_ne_nil hns0
    rw [List.cons_append]
    exact dropWhile_cons_of_neg _ _ _ (not_isWS_of_isDigit (hns a (by simp)))
  have e3 : digits1 (ns ++ ('/' :: ds)) = some (ns, '/' :: ds) :=
    digits1_append _ _ _ hns hns0 (by rfl)
  have e4 : ('/' :: ds).dropWhile isWS = '/' :: ds :=
    dropWhile_cons_of_neg _ _ _ (by rfl)
  have e5 : ds.dropWhile isWS = ds := by
    obtain ⟨a, t, rfl⟩ := List.exists_cons_of_ne_nil hds0
    exact dropWhile_cons_of_neg _ _ _ (not_isWS_of_isDigit (hds a (by simp)))
  have e6 : digits1 ds = some (ds, []) := digits1_all _ hds hds0
  unfold matchMixedBody
  rw [e1]
  simp only [e2, e3, e4, e5, e6, show isWS ' ' = true from rfl, if_true]

end MPG.Submit

namespace MPG.Submit

lemma trimChars_of_head_last (a : Char) (ha : isWS a = false)
    (mid ds : List Char) (hds : ∀ c ∈ ds, isDigit c = true) (h0 : ds ≠ []) :
    trimChars (a :: (mid ++ ds)) = a :: (mid ++ ds) := by
  apply trimChars_eq_self
  · intro c hc
    obtain rfl : a = c := by simpa using hc
    exact ha
  · intro c hc
    rw [show a :: (mid ++ ds) = (a :: mid) ++ ds from by simp,
      List.getLast?_append_of_ne_nil _ h0] at hc
    have hmem : c ∈ ds := List.mem_of_mem_getLast? (by simp [hc])
    exact not_isWS_of_isDigit (hds c hmem)

lemma parse_via_mixed (input : String) (w : ℤ) (n d : ℕ)
    (h : matchMixed (trimChars input.data) = some (w, n, d)) (hd : d ≠ 0) :
    parseNumericOrFraction input =
      some ((w : ℚ) + (if (0:ℚ) ≤ (w : ℚ) then 1 else -1) * ((n : ℚ) / (d : ℚ))) := by
  simp only [parseNumericOrFraction]
  rw [h]
  simp only [if_neg hd]

lemma parse_mixed_neg (ws ns ds : List Char)
    (hws : ∀ c ∈ ws, isDigit c = true) (hws0 : ws ≠ [])
    (hns : ∀ c ∈ ns, isDigit c = true) (hns0 : ns ≠ [])
    (hds : ∀ c ∈ ds, isDigit c = true) (hds0 : ds ≠ [])
    (hD : digitsToNat ds ≠ 0) (hW : digitsToNat ws ≠ 0) :
    parseNumericOrFraction ⟨'-' :: (ws ++ (' ' :: (ns ++ ('/' :: ds))))⟩ =
      some (-((digitsToNat ws : ℚ) +
        (digitsToNat ns : ℚ) / (digitsToNat ds : ℚ))) := by
  have htrim : trimChars ('-' :: (ws ++ (' ' :: (ns ++ ('/' :: ds))))) =
      '-' :: (ws ++ (' ' :: (ns ++ ('/' :: ds)))) := by
    rw [show '-' :: (ws ++ (' ' :: (ns ++ ('/' :: ds)))) =
      '-' :: ((ws ++ (' ' :: ns) ++ ['/']) ++ ds) from by simp]
    exact trimChars_of_head_last '-' (by rfl) _ ds hds hds0
  have hmm : matchMixed (trimChars
      (⟨'-' :: (ws ++ (' ' :: (ns ++ ('/' :: ds))))⟩ : String).data) =
      some (((-1) * (digitsToNat ws : ℤ) : ℤ), digitsToNat ns, digitsToNat ds) := by
    rw [show (⟨'-' :: (ws ++ (' ' :: (ns ++ ('/' :: ds))))⟩ : String).data =
      '-' :: (ws ++ (' ' :: (ns ++ ('/' :: ds)))) from rfl, htrim,
      show matchMixed ('-' :: (ws ++ (' ' :: (ns ++ ('/' :: ds))))) =
        matchMixedBody (-1) (ws ++ (' ' :: (ns ++ ('/' :: ds)))) from rfl]
    exact matchMixedBody_eval _ _ _ _ hws hws0 hns hns0 hds hds0
  rw [parse_via_mixed _ _ _ _ hmm hD]
  have hWQ : ¬ (0:ℚ) ≤ ((((-1) * (digitsToNat ws : ℤ) : ℤ)) : ℚ) := by
    rw [not_le, show ((-1) * (digitsToNat ws : ℤ) : ℤ) = -(digitsToNat ws : ℤ) from by ring,
      Int.cast_neg, neg_lt_zero]
    exact_mod_cast Nat.pos_of_ne_zero hW
  rw [if_neg hWQ]
  congr 1
  push_cast
  ring

end MPG.Submit

namespace MPG.Submit

lemma ne_sign_of_isDigit {c : Char} (h : isDigit c = true) :
    c ≠ '+' ∧ c ≠ '-' := by
  unfold isDigit at h
  rw [Bool.and_eq_true, decide_eq_true_eq, decide_eq_true_eq] at h
  obtain ⟨h1, _⟩ := h
  constructor <;> (rintro rfl; exact absurd h1 (by decide))

lemma parse_mixed_plain (ws ns ds : List Char)
    (hws : ∀ c ∈ ws, isDigit c = true) (hws0 : ws ≠ [])
    (hns : ∀ c ∈ ns, isDigit c = true) (hns0 : ns ≠ [])
    (hds : ∀ c ∈ ds, isDigit c = true) (hds0 : ds ≠ [])
    (hD : digitsToNat ds ≠ 0) :
    parseNumericOrFraction ⟨ws ++ (' ' :: (ns ++ ('/' :: ds)))⟩ =
      some ((digitsToNat ws : ℚ) +
        (digitsToNat ns : ℚ) / (digitsToNat ds : ℚ)) := by
  obtain ⟨a, t, rfl⟩ := List.exists_cons_of_ne_nil hws0
  have hne := ne_sign_of_isDigit (hws a (by simp))
  have htrim : trimChars ((a :: t) ++ (' ' :: (ns ++ ('/' :: ds)))) =
      (a :: t) ++ (' ' :: (ns ++ ('/' :: ds))) := by
    rw [show (a :: t) ++ (' ' :: (ns ++ ('/' :: ds))) =
      a :: ((t ++ (' ' :: ns) ++ ['/']) ++ ds) from by simp]
    exact trimChars_of_head_last a
      (not_isWS_of_isDigit (hws a (by simp))) _ ds hds hds0
  have hmm : matchMixed (trimChars
      (⟨(a :: t) ++ (' ' :: (ns ++ ('/' :: ds)))⟩ : String).data) =
      some (((1 : ℤ) * (digitsToNat (a :: t) : ℤ) : ℤ),
        digitsToNat ns, digitsToNat ds) := by
    rw [show (⟨(a :: t) ++ (' ' :: (ns ++ ('/' :: ds)))⟩ : String).data =
      (a :: t) ++ (' ' :: (ns ++ ('/' :: ds))) from rfl, htrim, List.cons_append,
      show matchMixed (a :: (t ++ (' ' :: (ns ++ ('/' :: ds))))) =
        (if a = '+' then matchMixedBody 1 (t ++ (' ' :: (ns ++ ('/' :: ds))))
         else if a = '-' then matchMixedBody (-1) (t ++ (' ' :: (ns ++ ('/' :: ds))))
         else matchMixedBody 1 (a :: (t ++ (' ' :: (ns ++ ('/' :: ds)))))) from rfl,
      if_neg hne.1, if_neg hne.2, ← List.cons_append]
    exact matchMixedBody_eval 1 (a :: t) ns ds hws hws0 hns hns0 hds hds0
  rw [parse_via_mixed _ _ _ _ hmm hD, if_pos (by push_cast; positivity)]
  congr 1
  push_cast
  ring

lemma parse_mixed_plus (ws ns ds : List Char)
    (hws : ∀ c ∈ ws, isDigit c = true) (hws0 : ws ≠ [])
    (hns : ∀ c ∈ ns, isDigit c = true) (hns0 : ns ≠ [])
    (hds : ∀ c ∈ ds, isDigit c = true) (hds0 : ds ≠ [])
    (hD : digitsToNat ds ≠ 0) :
    parseNumericOrFraction ⟨'+' :: (ws ++ (' ' :: (ns ++ ('/' :: ds))))⟩ =
      some ((digitsToNat ws : ℚ) +
        (digitsToNat ns : ℚ) / (digitsToNat ds : ℚ)) := by
  have htrim : trimChars ('+' :: (ws ++ (' ' :: (ns ++ ('/' :: ds))))) =
      '+' :: (ws ++ (' ' :: (ns ++ ('/' :: ds)))) := by
    rw [show '+' :: (ws ++ (' ' :: (ns ++ ('/' :: ds)))) =
      '+' :: ((ws ++ (' ' :: ns) ++ ['/']) ++ ds) from by simp]
    exact trimChars_of_head_last '+' (by rfl) _ ds hds hds0
  have hmm : matchMixed (trimChars
      (⟨'+' :: (ws ++ (' ' :: (ns ++ ('/' :: ds))))⟩ : String).data) =
      some (((1 : ℤ) * (digitsToNat ws : ℤ) : ℤ),
        digitsToNat ns, digitsToNat ds) := by
    rw [show (⟨'+' :: (ws ++ (' ' :: (ns ++ ('/' :: ds))))⟩ : String).data =
      '+' :: (ws ++ (' ' :: (ns ++ ('/' :: ds)))) from rfl, htrim,
      show matchMixed ('+' :: (ws ++ (' ' :: (ns ++ ('/' :: ds))))) =
        matchMixedBody 1 (ws ++ (' ' :: (ns ++ ('/' :: ds)))) from rfl]
    exact matchMixedBody_eval 1 ws ns ds hws hws0 hns hns0 hds hds0
  rw [parse_via_mixed _ _ _ _ hmm hD, if_pos (by push_cast; positivity)]
  congr 1
  push_cast
  ring

end MPG.Submit

namespace MPG.Submit

lemma parse_ws_invariant (pre post : List Char) (s : String)
    (hpre : ∀ c ∈ pre, isWS c = true) (hpost : ∀ c ∈ post, isWS c = true) :
    parseNumericOrFraction ⟨pre ++ s.data ++ post⟩ = parseNumericOrFraction s := by
  have ht : trimChars (pre ++ s.data ++ post) = trimChars s.data := by
    rw [List.append_assoc, trimChars_ws_pre _ _ hpre, trimChars_ws_suf _ _ hpost]
  simp only [parseNumericOrFraction]
  rw [ht]

lemma parse_ex_16 : parseNumericOrFraction "1/6" = some (1/6) := by
  have h : parseNumericOrFraction "1/6" =
      some (((1 * (digitsToNat ['1'] : ℤ) : ℤ) : ℚ) /
        ((1 * (digitsToNat ['6'] : ℤ) : ℤ) : ℚ)) := rfl
  rw [h, show digitsToNat ['1'] = 1 from rfl, show digitsToNat ['6'] = 6 from rfl]
  norm_num

lemma parse_ex_1_12 : parseNumericOrFraction "1 1/2" = some (3/2) := by
  have h : parseNumericOrFraction "1 1/2" =
      some (((1 * (digitsToNat ['1'] : ℤ) : ℤ) : ℚ) +
        (if (0:ℚ) ≤ ((1 * (digitsToNat ['1'] : ℤ) : ℤ) : ℚ) then 1 else -1) *
          ((digitsToNat ['1'] : ℚ) / (digitsToNat ['2'] : ℚ))) := rfl
  rw [h, show digitsToNat ['1'] = 1 from rfl, show digitsToNat ['2'] = 2 from rfl]
  norm_num

lemma parse_ex_neg1_12 : parseNumericOrFraction "-1 1/2" = some (-(3/2)) := by
  have h : parseNumericOrFraction "-1 1/2" =
      some ((((-1) * (digitsToNat ['1'] : ℤ) : ℤ) : ℚ) +
        (if (0:ℚ) ≤ (((-1) * (digitsToNat ['1'] : ℤ) : ℤ) : ℚ) then 1 else -1) *
          ((digitsToNat ['1'] : ℚ) / (digitsToNat ['2'] : ℚ))) := rfl
  rw [h, show digitsToNat ['1'] = 1 from rfl, show digitsToNat ['2'] = 2 from rfl]
  rw [if_neg (by norm_num)]
  norm_num

lemma parse_ex_250 : parseNumericOrFraction "  2.50 " = some (5/2) := by
  have h : parseNumericOrFraction "  2.50 " =
      some (scalePow10 (((digitsToNat ['2'] : ℕ) : ℚ) +
        ((digitsToNat ['5','0'] : ℕ) : ℚ) / 10 ^ (2:ℕ)) 0) := rfl
  rw [h, show digitsToNat ['2'] = 2 from rfl, show digitsToNat ['5','0'] = 50 from rfl]
  norm_num [scalePow10]

lemma parse_ex_30 : parseNumericOrFraction "3/0" = none := rfl

lemma parse_ex_abc : parseNumericOrFraction "abc" = none := rfl

lemma parse_ex_neg0_12 : parseNumericOrFraction "-0 1/2" = some (1/2) := by
  have h : parseNumericOrFraction "-0 1/2" =
      some ((((-1) * (digitsToNat ['0'] : ℤ) : ℤ) : ℚ) +
        (if (0:ℚ) ≤ (((-1) * (digitsToNat ['0'] : ℤ) : ℤ) : ℚ) then 1 else -1) *
          ((digitsToNat ['1'] : ℚ) / (digitsToNat ['2'] : ℚ))) := rfl
  rw [h, show digitsToNat ['0'] = 0 from rfl, show digitsToNat ['1'] = 1 from rfl,
    show digitsToNat ['2'] = 2 from rfl]
  rw [if_pos (by norm_num)]
  norm_num

end MPG.Submit

namespace MPG.Claims

open MPG.Submit

/-- C2 counterexample: on the mixed-number input `"-0 1/2"` (sign `-`,
whole part `0`, fraction `1/2`) the normalizer returns `+1/2`, not
`sign * (|W| + N/D) = -1/2`: in the source, `whole >= 0` holds for the
parsed whole part `-0`, so the fraction is added rather than subtracted
and the leading `-` is dropped entirely. -/
theorem parse_sign_counterexample :
    parseNumericOrFraction "-0 1/2" = some (1/2) ∧
    parseNumericOrFraction "-0 1/2" ≠ some (-(0 + 1/2 : ℚ)) := by
  refine ⟨parse_ex_neg0_12, ?_⟩
  rw [parse_ex_neg0_12]
  intro hcontra
  rw [Option.some.injEq] at hcontra
  norm_num at hcontra

/-- C2 (amended): the normalizer returns `1/6` for `"1/6"`, `1.5` for
`"1 1/2"`, `-1.5` for `"-1 1/2"`, `2.5` for `"  2.50 "`; it fails for
`"3/0"` and `"abc"`; leading/trailing whitespace is tolerated; and for
every mixed-number input `±W N/D` with nonzero denominator **and nonzero
whole part `W`**, the sign applies to the whole mixed number
(`result = sign * (W + N/D)`); when `W = 0` a leading `-` is ignored
(see the counterexample). -/
theorem parse_normalizer_amended :
    parseNumericOrFraction "1/6" = some (1/6) ∧
    parseNumericOrFraction "1 1/2" = some (3/2) ∧
    parseNumericOrFraction "-1 1/2" = some (-(3/2)) ∧
    parseNumericOrFraction "  2.50 " = some (5/2) ∧
    parseNumericOrFraction "3/0" = none ∧
    parseNumericOrFraction "abc" = none ∧
    (∀ (pre post : List Char) (s : String), (∀ c ∈ pre, isWS c = true) →
      (∀ c ∈ post, isWS c = true) →
      parseNumericOrFraction ⟨pre ++ s.data ++ post⟩ = parseNumericOrFraction s) ∧
    (∀ ws ns ds : List Char, (∀ c ∈ ws, isDigit c = true) → ws ≠ [] →
      (∀ c ∈ ns, isDigit c = true) → ns ≠ [] →
      (∀ c ∈ ds, isDigit c = true) → ds ≠ [] →
      digitsToNat ds ≠ 0 → digitsToNat ws ≠ 0 →
      parseNumericOrFraction ⟨'-' :: (ws ++ (' ' :: (ns ++ ('/' :: ds))))⟩ =
        some (-((digitsToNat ws : ℚ) +
          (digitsToNat ns : ℚ) / (digitsToNat ds : ℚ))) ∧
      parseNumericOrFraction ⟨'+' :: (ws ++ (' ' :: (ns ++ ('/' :: ds))))⟩ =
        some ((digitsToNat ws : ℚ) +
          (digitsToNat ns : ℚ) / (digitsToNat ds : ℚ)) ∧
      parseNumericOrFraction ⟨ws ++ (' ' :: (ns ++ ('/' :: ds)))⟩ =
        some ((digitsToNat ws : ℚ) +
          (digitsToNat ns : ℚ) / (digitsToNat ds : ℚ))) := by
  refine ⟨parse_ex_16, parse_ex_1_12, parse_ex_neg1_12, parse_ex_250,
    parse_ex_30, parse_ex_abc, parse_ws_invariant,
    fun ws ns ds hws hws0 hns hns0 hds hds0 hD hW => ?_⟩
  exact ⟨parse_mixed_neg ws ns ds hws hws0 hns hns0 hds hds0 hD hW,
    parse_mixed_plus ws ns ds hws hws0 hns hns0 hds hds0 hD,
    parse_mixed_plain ws ns ds hws hws0 hns hns0 hds hds0 hD⟩

/-- Witness for C2 (amended), at `"-1 1/2"` (constructed character by
character) and at `"2.50"` padded with spaces. -/
theorem parse_normalizer_amended_witness :
    parseNumericOrFraction ⟨'-' :: (['1'] ++ (' ' :: (['1'] ++ ('/' :: ['2']))))⟩ =
      some (-((digitsToNat ['1'] : ℚ) +
        (digitsToNat ['1'] : ℚ) / (digitsToNat ['2'] : ℚ))) ∧
    parseNumericOrFraction ⟨[' '] ++ "2.50".data ++ [' ']⟩ =
      parseNumericOrFraction "2.50" :=
  ⟨(parse_normalizer_amended.2.2.2.2.2.2.2 ['1'] ['1'] ['2'] (by decide)
      (by decide) (by decide) (by decide) (by decide) (by decide) (by decide)
      (by decide)).1,
   parse_normalizer_amended.2.2.2.2.2.2.1 [' '] [' '] "2.50" (by decide)
      (by decide)⟩

end MPG.Claims

namespace MPG

/-- `String.prototype.toUpperCase` (ASCII; stored prefixes are ASCII). -/
def jsUpper (s : String) : String := ⟨s.data.map Char.toUpper⟩

/-- One step of `String.prototype.split(sep)`: leftmost-first scan,
accumulating the current segment in reverse; `fuel` bounds the recursion
(`l.length` suffices) so the function stays structurally recursive. -/
def splitGo (sep : List Char) (fuel : ℕ) (cur l : List Char) :
    List (List Char) :=
  match fuel with
  | 0 => [cur.reverse ++ l]
  | fuel + 1 =>
    match l with
    | [] => [cur.reverse]
    | c :: r =>
      if sep.isPrefixOf (c :: r) then
        cur.reverse :: splitGo sep fuel [] ((c :: r).drop sep.length)
      else splitGo sep fuel (c :: cur) r

/-- `String.prototype.split(sep)` for a non-empty separator. -/
def jsSplit (sep s : String) : List String :=
  (splitGo sep.data s.data.length [] s.data).map (fun l => (⟨l⟩ : String))

/-- `Array.prototype.join(sep)`. -/
def jsJoin (sep : String) (parts : List String) : String :=
  String.intercalate sep parts

end MPG

namespace MPG.Prefixes

/-! ## `problem_text` prefix readers -/

def DIFFS : List String := ["EASY", "MEDIUM", "HARD"]

def TYPE_NAMES : List String :=
  ["ADDITION", "SUBTRACTION", "MULTIPLICATION", "DIVISION"]

/-- `parsePrefix` of `app/sessions/page.tsx` (lines 18–36): splits on
`" | "`, recognises the difficulty and an optional problem-type segment,
and falls back to the whole text when the remainder is empty
(`plain || problemText`). Difficulty, type and plain text are returned in
that order, as plain strings mirroring the TS string unions. -/
def parsePrefix_sessions (problemText : String) :
    String × String × String :=
  if problemText = "" then ("UNKNOWN", "UNKNOWN", "")
  else
    let parts := jsSplit " | " problemText
    let d := jsUpper (jsTrim (parts.getD 0 ""))
    let maybeType := jsUpper (jsTrim (parts.getD 1 ""))
    let hasType := maybeType ∈ TYPE_NAMES
    let plain := jsTrim (jsJoin " | " (if hasType then parts.drop 2 else parts.drop 1))
    (if d ∈ DIFFS then d else "UNKNOWN",
     if hasType then maybeType else "UNKNOWN",
     if plain = "" then problemText else plain)

/-- `parsePrefix` of the history pages (`src/unnamed/part_001` lines 25–36
and the identical copy in `part_002`): the legacy two-field fallback keys
on `parts.length >= 3` and on the truthiness of `parts[1]`. -/
def parsePrefix_history (pt : String) : String × String × String :=
  if pt = "" then ("UNKNOWN", "UNKNOWN", "")
  else
    let parts := jsSplit " | " pt
    let diff := jsUpper (jsTrim (parts.getD 0 ""))
    let ty := jsUpper (jsTrim (parts.getD 1 ""))
    let plain :=
      if parts.length ≥ 3 then jsTrim (jsJoin " | " (parts.drop 2))
      else if parts.getD 1 "" ≠ "" then jsTrim (jsJoin " | " (parts.drop 1))
      else pt
    (if diff ∈ DIFFS then diff else "UNKNOWN",
     if ty ∈ TYPE_NAMES then ty else "UNKNOWN",
     plain)

/-- Zero-width/BOM characters removed by the score route's cleaning regex
`/[\uFEFF\u200B-\u200D\u2060]/g`. -/
def stripZeroWidth (l : List Char) : List Char :=
  l.filter (fun c =>
    !(c = '\uFEFF' || ('\u200B' ≤ c && c ≤ '\u200D') || c = '\u2060'))

/-- `parseDifficulty` of the score route (`src/unnamed/part_003`,
lines 10–19): strips BOM/zero-width characters, trims, splits on `'|'`,
and returns the first segment equal to EASY/MEDIUM/HARD, else UNKNOWN. -/
def parseDifficulty (problemText : String) : String :=
  if problemText = "" then "UNKNOWN"
  else
    let cleaned := jsTrim ⟨stripZeroWidth problemText.data⟩
    let segments := (jsSplit "|" cleaned).map (fun s => jsUpper (jsTrim s))
    match segments.find?
        (fun s => s = "EASY" || s = "MEDIUM" || s = "HARD") with
    | some hit => if hit = "" then "UNKNOWN" else hit
    | none => "UNKNOWN"

end MPG.Prefixes

namespace MPG

/-- First index at which `pat` occurs in the list (`String.indexOf`;
`none` is JS `-1`). -/
def indexOfSubGo (pat : List Char) : List Char → Option ℕ
  | [] => if pat = [] then some 0 else none
  | c :: r =>
    if pat.isPrefixOf (c :: r) then some 0
    else (indexOfSubGo pat r).map (· + 1)

end MPG

namespace MPG.Hint

/-! ## `app/api/hint/route.ts` -/

/-- A `math_problem_sessions` row as the hint route sees the store. -/
structure Session where
  id : String
  problem_text : String
  correct_answer : ℚ
deriving Repr, DecidableEq

/-- The difficulty/plain-problem extraction of the hint route
(lines 438–440): `idx = problem_text.indexOf(' | ')`; when `idx > 0` the
prefix before it (trimmed, uppercased) is the difficulty and the rest
after `idx+3` the problem, otherwise `UNKNOWN` and the whole text. -/
def hintParts (pt : String) : String × String :=
  match indexOfSubGo " | ".data pt.data with
  | some idx =>
    if idx > 0 then
      (jsUpper (jsTrim ⟨pt.data.take idx⟩), jsTrim ⟨pt.data.drop (idx + 3)⟩)
    else ("UNKNOWN", pt)
  | none => ("UNKNOWN", pt)

/-- `basePrompt` of the hint route (lines 444–455), a function of the
fetched `problem_text` only — the route's store query selects
`id, problem_text` and never the correct answer. -/
def hintBasePrompt (pt : String) : String :=
  jsTrim ("You are a friendly Primary 5 math tutor (Singapore syllabus).\n" ++
    "Give 2–4 short hints that guide the student on HOW to solve the problem.\n" ++
    "DO NOT reveal the final numeric answer.\n" ++
    "Prefer steps, reminders (units, fractions/decimals, order of operations), and a gentle nudge.\n" ++
    "\n" ++
    "Difficulty: " ++ (hintParts pt).1 ++ "\n" ++
    "Problem:\n" ++ (hintParts pt).2 ++ "\n" ++
    "\n" ++
    "Return only the hints in short lines or bullet points (no extra preface).")

/-- `POST /hint` up to the first provider call: fetch the session row by
id and build the prompt; `none` is the 404 response. -/
def postHintPrompt (store : List Session) (sessionId : String) :
    Option String :=
  match store.find? (fun s => s.id = sessionId) with
  | none => none
  | some s => some (hintBasePrompt s.problem_text)

end MPG.Hint

namespace MPG.Claims

open MPG.Prefixes MPG.Hint

/-- C6: the two `parsePrefix` readers map `"HARD | DIVISION | Problem
text"` to difficulty `HARD`, type `DIVISION`, plain `"Problem text"`, and
the legacy two-field `"EASY | Problem text"` to `EASY`, `UNKNOWN`,
`"Problem text"`; the remaining readers of stored `problem_text` also
tolerate the legacy form: the score route's `parseDifficulty` and the hint
route's difficulty extraction recover the difficulty from both forms. -/
theorem prefix_parsing_both_readers :
    parsePrefix_sessions "HARD | DIVISION | Problem text" =
      ("HARD", "DIVISION", "Problem text") ∧
    parsePrefix_sessions "EASY | Problem text" =
      ("EASY", "UNKNOWN", "Problem text") ∧
    parsePrefix_history "HARD | DIVISION | Problem text" =
      ("HARD", "DIVISION", "Problem text") ∧
    parsePrefix_history "EASY | Problem text" =
      ("EASY", "UNKNOWN", "Problem text") ∧
    parseDifficulty "HARD | DIVISION | Problem text" = "HARD" ∧
    parseDifficulty "EASY | Problem text" = "EASY" ∧
    (hintParts "HARD | DIVISION | Problem text").1 = "HARD" ∧
    (hintParts "EASY | Problem text").1 = "EASY" := by
  refine ⟨?_, ?_, ?_, ?_, ?_, ?_, ?_, ?_⟩ <;> rfl

end MPG.Claims

namespace MPG.Claims

open MPG.Hint

/-- C8: the hint prompt never depends on the stored correct answer: for
any two stores whose rows agree on `id` and `problem_text` (and may differ
arbitrarily in `correct_answer`), `POST /hint` builds the identical prompt
for every session id. -/
theorem hint_prompt_independent_of_answer (store1 store2 : List Session)
    (sid : String)
    (h : List.Forall₂
      (fun a b => a.id = b.id ∧ a.problem_text = b.problem_text)
      store1 store2) :
    postHintPrompt store1 sid = postHintPrompt store2 sid := by
  induction h with
  | nil => rfl
  | @cons a b l1 l2 hab htail ih =>
    obtain ⟨hid, hpt⟩ := hab
    by_cases hs : b.id = sid
    · have ha : a.id = sid := by rw [hid]; exact hs
      unfold postHintPrompt
      rw [List.find?_cons_of_pos _ (by simpa using ha),
        List.find?_cons_of_pos _ (by simpa using hs)]
      show some (hintBasePrompt a.problem_text) =
        some (hintBasePrompt b.problem_text)
      rw [hpt]
    · have ha : ¬ a.id = sid := by rw [hid]; exact hs
      have e1 : postHintPrompt (a :: l1) sid = postHintPrompt l1 sid := by
        unfold postHintPrompt
        rw [List.find?_cons_of_neg _ (by simpa using ha)]
      have e2 : postHintPrompt (b :: l2) sid = postHintPrompt l2 sid := by
        unfold postHintPrompt
        rw [List.find?_cons_of_neg _ (by simpa using hs)]
      rw [e1, e2]
      exact ih

end MPG.Claims

namespace MPG.Claims

open MPG.Hint

/-- Witness for C8: two one-row stores that agree on id and problem text
but store different correct answers (1 vs 2) produce the same prompt. -/
theorem hint_prompt_independent_of_answer_witness :
    postHintPrompt [⟨"s1", "EASY | P", 1⟩] "s1" =
      postHintPrompt [⟨"s1", "EASY | P", 2⟩] "s1" :=
  hint_prompt_independent_of_answer _ _ "s1"
    (List.Forall₂.cons ⟨rfl, rfl⟩ List.Forall₂.nil)

end MPG.Claims

namespace MPG

/-- `String.prototype.toLowerCase` (ASCII). -/
def jsLower (s : String) : String := ⟨s.data.map Char.toLower⟩

end MPG

namespace MPG.Generate

/-! ## `app/api/generate/route.ts` -/

inductive Difficulty | EASY | MEDIUM | HARD
deriving DecidableEq, Repr

inductive ProbType | ADDITION | SUBTRACTION | MULTIPLICATION | DIVISION
deriving DecidableEq, Repr

def Difficulty.str : Difficulty → String
  | .EASY => "EASY"
  | .MEDIUM => "MEDIUM"
  | .HARD => "HARD"

def ProbType.str : ProbType → String
  | .ADDITION => "ADDITION"
  | .SUBTRACTION => "SUBTRACTION"
  | .MULTIPLICATION => "MULTIPLICATION"
  | .DIVISION => "DIVISION"

def MODEL_CANDIDATES : List String :=
  ["gemini-2.5-flash", "gemini-1.5-flash", "gemini-1.5-flash-8b"]

def TOPICS : List String :=
  ["whole numbers (multi-step word problems)",
   "fractions (addition/subtraction with unlike denominators)",
   "fractions (multiplication/division by whole numbers)",
   "decimals (money/context, addition & multiplication)",
   "ratio and proportion (part-whole)",
   "percentage (discounts, increases, tax)",
   "area/perimeter of rectangles & triangles",
   "rates & time (distance-speed-time, work rate)"]

def PROB_TYPES : List ProbType :=
  [.ADDITION, .SUBTRACTION, .MULTIPLICATION, .DIVISION]

def FALLBACKS : List (String × ℚ) :=
  [("A shop sells pencils at $0.80 each. Mei bought 6 pencils. How much did she pay in total?", 24/5),
   ("A tank holds 24 litres of water. Ben drinks 0.3 litres every 10 minutes. How much will he drink in 1 hour?", 9/5),
   ("A rectangle is 12 cm long and 5 cm wide. What is its perimeter?", 34)]

/-- `pick(arr, exclude?)` (lines 139–142): filters out `exclude` and
indexes at `Math.floor(r * filtered.length)`, `r` being the `Math.random()`
value supplied by the environment; an out-of-range index (JS `undefined`,
impossible for `r ∈ [0,1)` and a nonempty list) falls back to `default`. -/
def pick {α : Type} [DecidableEq α] (arr : List α) (exclude : Option α)
    (r : ℚ) (default : α) : α :=
  let filtered := match exclude with
    | some e => arr.filter (fun x => x ≠ e)
    | none => arr
  filtered.getD (Int.floor (r * filtered.length)).toNat default

/-- A JSON value as far as the validation checks can observe it. -/
inductive JVal
  | str (s : String)
  | num (q : ℚ)
  | bool (b : Bool)
  | nul
deriving DecidableEq, Repr

/-- The fields of a `JSON.parse` result that the route reads. A missing
field is `none`; `problem_text`, when present, carries the string the TS
type declares (its truthiness check is `≠ ""`). -/
structure JsonObj where
  problem_text : Option String
  final_answer : Option JVal
deriving DecidableEq, Repr

/-- First regex replace of `extractJson` (`/^\s*(3 backticks)(?:json)?\s*/i`,
removed when it matches, the string left unchanged otherwise). -/
def stripLeadFence (l : List Char) : List Char :=
  match l.dropWhile isWS with
  | '\x60' :: '\x60' :: '\x60' :: r =>
    let r1 := if ("json".data).isPrefixOf (r.map Char.toLower) then r.drop 4 else r
    r1.dropWhile isWS
  | _ => l

/-- Second regex replace of `extractJson` (`/\s*(3 backticks)\s*$/i`). -/
def stripTrailFence (l : List Char) : List Char :=
  match l.reverse.dropWhile isWS with
  | '\x60' :: '\x60' :: '\x60' :: r2 => (r2.dropWhile isWS).reverse
  | _ => l

/-- The `fenced` preprocessing of `extractJson` (line 146):
both fence replaces, then `.trim()`. -/
def stripFences (s : String) : String :=
  jsTrim ⟨stripTrailFence (stripLeadFence s.data)⟩

/-- `extractJson` (lines 144–154), parametrised by the `JSON.parse` host
function `jp` (`none` = `JSON.parse` throws). Empty input throws; the
fence-stripped text is tried first; otherwise the substring of the
*original* text from the first `{` to the last `}` is parsed, a parse
failure there propagating out of the function. -/
def extractJson (jp : String → Option JsonObj) (s : String) :
    Except String String :=
  if s = "" then .error "Empty model output"
  else
    let fenced := stripFences s
    if (jp fenced).isSome then .ok fenced
    else
      match indexOfSubGo ['\x7b'] s.data,
            (indexOfSubGo ['\x7d'] s.data.reverse).map
              (fun i => s.data.length - 1 - i) with
      | some start, some stop =>
        if stop > start then
          let cand := jsTrim ⟨(s.data.take (stop + 1)).drop start⟩
          match jp cand with
          | some _ => .ok cand
          | none => .error "SyntaxError"
        else .error "No JSON object found in model output"
      | _, _ => .error "No JSON object found in model output"

/-- The shape checks after `JSON.parse`
(`!parsed?.problem_text || typeof parsed.final_answer !== 'number'`):
a present truthy (non-empty) `problem_text` and a numeric `final_answer`. -/
def validateProblem (o : JsonObj) : Option (String × ℚ) :=
  match o.problem_text, o.final_answer with
  | some pt, some (.num q) => if pt = "" then none else some (pt, q)
  | _, _ => none

/-- The host environment of one `POST /generate` request: the provider
(model, prompt, jsonMode ↦ thrown error or returned text), `JSON.parse`,
the two nonces, one `Math.random()` value per call site, the previous
stored `problem_text` (the de-dupe query result) and the id the store
assigns to the inserted row. The store itself is modelled as
non-failing. -/
structure Env where
  provider : String → String → Bool → Except String String
  jp : String → Option JsonObj
  nonce1 : String
  nonce2 : String
  rType : ℚ
  rTopic1 : ℚ
  rTopic2 : ℚ
  rFallback : ℚ
  lastProblem : Option String
  newId : String

/-- The plain-mode (no `response_mime_type`) call of `genOnceWithModel`
(lines 178–189): its thrown errors propagate, its text is returned with
`usedJsonMode: false`. -/
def plainCall (env : Env) (model prompt : String) :
    Except String (String × Bool) :=
  match env.provider model prompt false with
  | .ok t2 => .ok (t2, false)
  | .error e2 => .error e2

/-- `genOnceWithModel` (lines 158–190): JSON-mode attempt first. A thrown
error mentioning `responseMime` — and also an empty returned text — leads
to the plain-mode call on the same model and prompt; any other thrown
error is rethrown. -/
def genOnceWithModel (env : Env) (model prompt : String) :
    Except String (String × Bool) :=
  match env.provider model prompt true with
  | .ok text =>
    if text ≠ "" then .ok (text, true)
    else plainCall env model prompt
  | .error e =>
    if (indexOfSubGo "responseMime".data e.data).isSome then
      plainCall env model prompt
    else .error e

def difficultyGuidance (d : Difficulty) : String :=
  match d with
  | .EASY =>
    "- 1 step (or very simple 2 steps), small integers.\n" ++
    "- No tricky unit conversions. Avoid complex fractions/ratios.\n" ++
    "- Suitable for quick mental/short working."
  | .HARD =>
    "- 2â€“3 steps with careful reasoning.\n" ++
    "- Include ratios/percentages/fractions/decimals interplay or a subtle trap (unit/rounding), but keep a single numeric final answer.\n" ++
    "- Numbers still reasonable for P5; avoid huge or unrealistic values."
  | .MEDIUM =>
    "- 2 steps typical P5 difficulty.\n" ++
    "- Allow fractions/decimals or percentage with one conversion.\n" ++
    "- Single numeric final answer; clear, unambiguous wording."

def probTypeGuidance (t : ProbType) : String :=
  match t with
  | .ADDITION => "The main operation to solve the problem must be addition."
  | .SUBTRACTION => "The main operation to solve the problem must be subtraction."
  | .MULTIPLICATION => "The main operation to solve the problem must be multiplication."
  | .DIVISION => "The main operation to solve the problem must be division."

/-- `basePrompt` of `generateOnce` (lines 230–260): the simplified
plain-text prompt (`simple = true`) and the full prompt (which also embeds
the novelty nonce), both re-requesting the same JSON shape. -/
def basePrompt (simple : Bool) (nonce topicHint : String) (diff : Difficulty)
    (ptype : ProbType) : String :=
  jsTrim (if simple then
    "Return ONLY valid JSON (no code fences, no extra text) with exactly these keys:\n" ++
    "\x7b\"problem_text\": \"string\", \"final_answer\": number\x7d\n" ++
    "Primary 5 (Singapore 2021 syllabus) word problem.\n" ++
    "Difficulty: " ++ diff.str ++ ".\n" ++
    "Problem type: " ++ ptype.str ++ ". " ++ probTypeGuidance ptype ++ "\n" ++
    "Guidance:\n" ++ difficultyGuidance diff ++ "\n" ++
    "Topic: " ++ topicHint ++ ".\n" ++
    "Use SGD when money appears.\n" ++
    "Ensure a single numerical final answer."
  else
    "You are generating ONE Primary 5 (Singapore 2021 syllabus) math word problem.\n" ++
    "\n" ++
    "Difficulty: " ++ diff.str ++ "\n" ++
    "Problem type: " ++ ptype.str ++ ". " ++ probTypeGuidance ptype ++ "\n" ++
    "Guidance:\n" ++ difficultyGuidance diff ++ "\n" ++
    "\n" ++
    "Requirements:\n" ++
    "- Topic focus: " ++ topicHint ++ "\n" ++
    "- Use SGD when money appears.\n" ++
    "- Keep numbers reasonable.\n" ++
    "- Clear, unambiguous wording with a single numerical final answer.\n" ++
    "- The core computation to reach the final answer must use " ++ jsLower ptype.str ++ ".\n" ++
    "- Return ONLY valid JSON with exactly two keys and no extra text, no code fences:\n" ++
    "\x7b\"problem_text\": \"string\", \"final_answer\": number\x7d\n" ++
    "\n" ++
    "Extra:\n" ++
    "- Avoid repeating stock problems.\n" ++
    "- Make it novel w.r.t. nonce: " ++ nonce ++ ".\n" ++
    "- If decimals occur, round to 2 d.p. in the final answer.")

/-- The value `generateOnce` resolves with on success. -/
structure GenResult where
  problem_text : String
  final_answer : ℚ
  raw : String
  topic : String
  modelUsed : String
deriving DecidableEq, Repr

/-- One extract-and-validate attempt on a returned text (the inner
`try`-block of the loop: `extractJson`, `JSON.parse`, shape check);
`none` means some step threw. -/
def attemptParse (env : Env) (text : String) : Option (String × ℚ) :=
  match extractJson env.jp text with
  | .error _ => none
  | .ok j =>
    match env.jp j with
    | none => none
    | some o => validateProblem o

/-- The candidate-model loop of `generateOnce` (lines 262–291): per model,
a full-prompt attempt; when its output fails extraction/validation, one
retry on the *same* model with the simplified prompt; on a thrown call or
a failed retry, the next candidate. The accumulated `lastErr` suffix of
the final error message is not modelled. -/
def generateOnceAux (env : Env) (nonce topicHint : String) (diff : Difficulty)
    (ptype : ProbType) : List String → Except String GenResult
  | [] => .error "All Gemini model candidates failed."
  | model :: rest =>
    match genOnceWithModel env model (basePrompt false nonce topicHint diff ptype) with
    | .error _ => generateOnceAux env nonce topicHint diff ptype rest
    | .ok (t1, _) =>
      match attemptParse env t1 with
      | some (pt, fa) => .ok ⟨pt, fa, t1, topicHint, model⟩
      | none =>
        match genOnceWithModel env model (basePrompt true nonce topicHint diff ptype) with
        | .error _ => generateOnceAux env nonce topicHint diff ptype rest
        | .ok (t2, _) =>
          match attemptParse env t2 with
          | some (pt, fa) => .ok ⟨pt, fa, t2, topicHint, model⟩
          | none => generateOnceAux env nonce topicHint diff ptype rest

/-- `generateOnce` (lines 227–292). -/
def generateOnce (env : Env) (nonce topicHint : String) (diff : Difficulty)
    (ptype : ProbType) : Except String GenResult :=
  generateOnceAux env nonce topicHint diff ptype MODEL_CANDIDATES

/-- `String(body?.difficulty ?? 'MEDIUM').toUpperCase()` filtered through
the `['EASY','MEDIUM','HARD'].includes` check (lines 299–300). -/
def requestDifficulty (bodyDifficulty : Option String) : Difficulty :=
  let rawDiff := jsUpper (bodyDifficulty.getD "MEDIUM")
  if rawDiff = "EASY" then .EASY
  else if rawDiff = "MEDIUM" then .MEDIUM
  else if rawDiff = "HARD" then .HARD
  else .MEDIUM

/-- `String(body?.probType ?? '').toUpperCase()` filtered through the
`PROB_TYPES.includes` check, falling back to `pick(PROB_TYPES)`
(lines 302–303). -/
def requestProbType (env : Env) (bodyProbType : Option String) : ProbType :=
  let rawType := jsUpper (bodyProbType.getD "")
  if rawType = "ADDITION" then .ADDITION
  else if rawType = "SUBTRACTION" then .SUBTRACTION
  else if rawType = "MULTIPLICATION" then .MULTIPLICATION
  else if rawType = "DIVISION" then .DIVISION
  else pick PROB_TYPES none env.rType .ADDITION

/-- The JSON body of a `POST /generate` response. -/
structure GenResponse where
  sessionId : String
  difficulty : Difficulty
  probType : ProbType
  problem_text : String
  final_answer : ℚ
  note : Option String
deriving DecidableEq, Repr

/-- Observable outcome of one `POST /generate`: the response, the rows
inserted into `math_problem_sessions` (problem_text, correct_answer), and
the topics passed to the `generateOnce` calls in order. -/
structure PostGenResult where
  response : GenResponse
  inserted : List (String × ℚ)
  genTopics : List String
deriving DecidableEq, Repr

/-- The catch-branch of `POST /generate` (lines 360–384): pick a fallback
problem, prefix it `MEDIUM | ADDITION`, insert it, respond with a note. -/
def fallbackResult (env : Env) (topics : List String) : PostGenResult :=
  let fb := pick FALLBACKS none env.rFallback ("", 0)
  let prefixed := "MEDIUM | ADDITION | " ++ fb.1
  { response :=
      { sessionId := env.newId
        difficulty := Difficulty.MEDIUM
        probType := ProbType.ADDITION
        problem_text := prefixed
        final_answer := fb.2
        note := some "Returned fallback problem due to AI error." }
    inserted := [(prefixed, fb.2)]
    genTopics := topics }

/-- The success tail of `POST /generate` (lines 322–359): prefix the
generated text with `DIFFICULTY | PROBTYPE`, insert, respond without a
note. -/
def successResult (env : Env) (difficulty : Difficulty) (probType : ProbType)
    (g : GenResult) (topics : List String) : PostGenResult :=
  let prefixed := difficulty.str ++ " | " ++ probType.str ++ " | " ++ g.problem_text
  { response :=
      { sessionId := env.newId
        difficulty := difficulty
        probType := probType
        problem_text := prefixed
        final_answer := g.final_answer
        note := none }
    inserted := [(prefixed, g.final_answer)]
    genTopics := topics }

/-- `POST /generate` (lines 294–385): resolve difficulty and problem type,
generate once, retry once with a different topic when the generated text
equals (trimmed) the immediately preceding stored problem, and fall back to
the canned problem when generation throws. -/
def postGenerate (env : Env) (bodyDifficulty bodyProbType : Option String) :
    PostGenResult :=
  let difficulty := requestDifficulty bodyDifficulty
  let probType := requestProbType env bodyProbType
  let topic := pick TOPICS none env.rTopic1 ""
  match generateOnce env env.nonce1 topic difficulty probType with
  | .error _ => fallbackResult env [topic]
  | .ok gen =>
    let isDup : Bool :=
      match env.lastProblem with
      | some lp => decide (lp ≠ "") && decide (jsTrim gen.problem_text = jsTrim lp)
      | none => false
    if isDup then
      let topic2 := pick TOPICS (some topic) env.rTopic2 ""
      match generateOnce env env.nonce2 topic2 difficulty probType with
      | .error _ => fallbackResult env [topic, topic2]
      | .ok gen2 => successResult env difficulty probType gen2 [topic, topic2]
    else successResult env difficulty probType gen [topic]

end MPG.Generate

namespace MPG.Generate

/-! ## Orchestrator lemmas -/

lemma genOnceWithModel_error (env : Env)
    (h : ∀ m p j, ∃ e, env.provider m p j = .error e) (model prompt : String) :
    ∃ e, genOnceWithModel env model prompt = .error e := by
  obtain ⟨e1, he1⟩ := h model prompt true
  obtain ⟨e2, he2⟩ := h model prompt false
  unfold genOnceWithModel
  rw [he1]
  by_cases hc : (indexOfSubGo "responseMime".data e1.data).isSome = true
  · refine ⟨e2, ?_⟩
    show (if (indexOfSubGo "responseMime".data e1.data).isSome = true
        then plainCall env model prompt else Except.error e1) = Except.error e2
    rw [if_pos hc]
    unfold plainCall
    rw [he2]
  · refine ⟨e1, ?_⟩
    show (if (indexOfSubGo "responseMime".data e1.data).isSome = true
        then plainCall env model prompt else Except.error e1) = Except.error e1
    rw [if_neg hc]

lemma generateOnceAux_error (env : Env)
    (h : ∀ m p j, ∃ e, env.provider m p j = .error e)
    (nonce topic : String) (d : Difficulty) (p : ProbType) :
    ∀ ms : List String, generateOnceAux env nonce topic d p ms =
      .error "All Gemini model candidates failed."
  | [] => rfl
  | model :: rest => by
    obtain ⟨e1, he1⟩ :=
      genOnceWithModel_error env h model (basePrompt false nonce topic d p)
    unfold generateOnceAux
    rw [he1]
    exact generateOnceAux_error env h nonce topic d p rest

lemma generateOnce_error_of_fail (env : Env)
    (h : ∀ m p j, ∃ e, env.provider m p j = .error e)
    (nonce topic : String) (d : Difficulty) (p : ProbType) :
    generateOnce env nonce topic d p =
      .error "All Gemini model candidates failed." :=
  generateOnceAux_error env h nonce topic d p MODEL_CANDIDATES

lemma postGenerate_eq_fallback (env : Env) (bd bt : Option String)
    (h : ∀ m p j, ∃ e, env.provider m p j = .error e) :
    postGenerate env bd bt = fallbackResult env [pick TOPICS none env.rTopic1 ""] := by
  simp only [postGenerate]
  rw [generateOnce_error_of_fail env h]

end MPG.Generate

namespace MPG.Generate

lemma floor_toNat_lt (r : ℚ) (n : ℕ) (_h0 : 0 ≤ r) (h1 : r < 1) (hn : 0 < n) :
    (Int.floor (r * n)).toNat < n := by
  have hfl : Int.floor (r * (n : ℚ)) < (n : ℤ) := by
    apply Int.floor_lt.mpr
    push_cast
    calc r * n < 1 * n := by
          apply mul_lt_mul_of_pos_right h1
          exact_mod_cast hn
    _ = n := one_mul _
  omega

lemma getD_mem {α : Type} (l : List α) (i : ℕ) (d : α) (h : i < l.length) :
    l.getD i d ∈ l := by
  induction l generalizing i with
  | nil => simp at h
  | cons a t ih =>
    cases i with
    | zero => simp
    | succ j =>
      rw [List.getD_cons_succ]
      exact List.mem_cons_of_mem a (ih j (by simpa using h))

lemma pick_none_mem {α : Type} [DecidableEq α] (arr : List α) (r : ℚ) (d : α)
    (h0 : 0 ≤ r) (h1 : r < 1) (hne : arr ≠ []) : pick arr none r d ∈ arr := by
  unfold pick
  exact getD_mem _ _ _ (floor_toNat_lt r arr.length h0 h1 (List.length_pos.mpr hne))

lemma pick_exclude_ne {α : Type} [DecidableEq α] (arr : List α) (e : α)
    (r : ℚ) (d : α) (h0 : 0 ≤ r) (h1 : r < 1)
    (hne : arr.filter (fun x => x ≠ e) ≠ []) :
    pick arr (some e) r d ≠ e := by
  unfold pick
  have hm := getD_mem (arr.filter (fun x => x ≠ e))
    (Int.floor (r * (arr.filter (fun x => x ≠ e)).length)).toNat d
    (floor_toNat_lt r _ h0 h1 (List.length_pos.mpr hne))
  have := List.mem_filter.mp hm
  simpa using this.2

end MPG.Generate

namespace MPG.Claims

open MPG.Generate

/-- C5: when every provider call throws (so every candidate model fails,
in both modes, for both prompts), `POST /generate` still responds, with the
fallback note set and a `final_answer` that is one of the predefined
fallback answers 4.8, 1.8, 34. -/
theorem generate_fallback_answer (env : Env) (bd bt : Option String)
    (hfail : ∀ m p j, ∃ e, env.provider m p j = .error e)
    (h0 : 0 ≤ env.rFallback) (h1 : env.rFallback < 1) :
    (postGenerate env bd bt).response.note =
      some "Returned fallback problem due to AI error." ∧
    ((postGenerate env bd bt).response.final_answer = 24/5 ∨
     (postGenerate env bd bt).response.final_answer = 9/5 ∨
     (postGenerate env bd bt).response.final_answer = 34) := by
  rw [postGenerate_eq_fallback env bd bt hfail]
  have hmem : pick FALLBACKS none env.rFallback ("", 0) ∈ FALLBACKS :=
    pick_none_mem _ _ _ h0 h1 (by simp [FALLBACKS])
  refine ⟨rfl, ?_⟩
  show (pick FALLBACKS none env.rFallback ("", 0)).2 = 24/5 ∨
    (pick FALLBACKS none env.rFallback ("", 0)).2 = 9/5 ∨
    (pick FALLBACKS none env.rFallback ("", 0)).2 = 34
  simp only [FALLBACKS, List.mem_cons, List.not_mem_nil, or_false] at hmem
  simp only [FALLBACKS]
  rcases hmem with h | h | h <;> rw [h]
  · exact Or.inl rfl
  · exact Or.inr (Or.inl rfl)
  · exact Or.inr (Or.inr rfl)

/-- C10: on total generation failure the fallback path still inserts
exactly one session row, whose `problem_text` is prefixed
`MEDIUM | ADDITION | `, and the response's difficulty and probType are
`MEDIUM` and `ADDITION` — regardless of the difficulty and probType the
request body asked for. -/
theorem generate_fallback_fixed_labels (env : Env) (bd bt : Option String)
    (hfail : ∀ m p j, ∃ e, env.provider m p j = .error e) :
    (postGenerate env bd bt).response.difficulty = Difficulty.MEDIUM ∧
    (postGenerate env bd bt).response.probType = ProbType.ADDITION ∧
    (postGenerate env bd bt).inserted =
      [("MEDIUM | ADDITION | " ++ (pick FALLBACKS none env.rFallback ("", 0)).1,
        (pick FALLBACKS none env.rFallback ("", 0)).2)] := by
  rw [postGenerate_eq_fallback env bd bt hfail]
  exact ⟨rfl, rfl, rfl⟩

/-- A provider that always throws, for the fallback witnesses. -/
def envFail : Env :=
  { provider := fun _ _ _ => Except.error "provider down"
    jp := fun _ => none
    nonce1 := "n1"
    nonce2 := "n2"
    rType := 0
    rTopic1 := 0
    rTopic2 := 0
    rFallback := 0
    lastProblem := none
    newId := "id-1" }

/-- Witness for C5 with an always-throwing provider and a request that
asked for HARD / DIVISION. -/
theorem generate_fallback_answer_witness :
    (postGenerate envFail (some "HARD") (some "DIVISION")).response.note =
      some "Returned fallback problem due to AI error." ∧
    ((postGenerate envFail (some "HARD") (some "DIVISION")).response.final_answer = 24/5 ∨
     (postGenerate envFail (some "HARD") (some "DIVISION")).response.final_answer = 9/5 ∨
     (postGenerate envFail (some "HARD") (some "DIVISION")).response.final_answer = 34) :=
  generate_fallback_answer envFail (some "HARD") (some "DIVISION")
    (fun _ _ _ => ⟨"provider down", rfl⟩) (by norm_num [envFail])
    (by norm_num [envFail])

/-- Witness for C10 with an always-throwing provider and a request that
asked for EASY / SUBTRACTION. -/
theorem generate_fallback_fixed_labels_witness :
    (postGenerate envFail (some "EASY") (some "SUBTRACTION")).response.difficulty =
      Difficulty.MEDIUM ∧
    (postGenerate envFail (some "EASY") (some "SUBTRACTION")).response.probType =
      ProbType.ADDITION ∧
    (postGenerate envFail (some "EASY") (some "SUBTRACTION")).inserted =
      [("MEDIUM | ADDITION | " ++
          (pick FALLBACKS none envFail.rFallback ("", 0)).1,
        (pick FALLBACKS none envFail.rFallback ("", 0)).2)] :=
  generate_fallback_fixed_labels envFail (some "EASY") (some "SUBTRACTION")
    (fun _ _ _ => ⟨"provider down", rfl⟩)

end MPG.Claims

namespace MPG.Claims

open MPG.Generate

/-- C4: inside the candidate loop, when the current model's full-prompt
output fails structured extraction/validation and the simplified-prompt
retry on the same model succeeds, the loop returns that retry's result —
`modelUsed` is the same model and the remaining candidates are never
consulted. Stated for an arbitrary position `model :: rest` of the
candidate list, hence in particular for the first candidate. -/
theorem generate_retry_same_model (env : Env) (nonce topic : String)
    (d : Difficulty) (p : ProbType) (model : String) (rest : List String)
    (t1 t2 : String) (jm1 jm2 : Bool) (pt : String) (fa : ℚ)
    (h1 : genOnceWithModel env model (basePrompt false nonce topic d p) =
      .ok (t1, jm1))
    (h2 : attemptParse env t1 = none)
    (h3 : genOnceWithModel env model (basePrompt true nonce topic d p) =
      .ok (t2, jm2))
    (h4 : attemptParse env t2 = some (pt, fa)) :
    generateOnceAux env nonce topic d p (model :: rest) =
      .ok ⟨pt, fa, t2, topic, model⟩ := by
  simp only [generateOnceAux, h1, h2, h3, h4]

end MPG.Claims

namespace MPG.Claims

open MPG.Generate

/-- A provider whose JSON-mode calls throw a `responseMime` error and whose
plain-mode calls answer garbage (`"B"`) for the full prompt but a valid
payload (`"J"`) for the simplified prompt; `JSON.parse` accepts only
`"J"`. -/
def envRetry : Env :=
  { provider := fun _ prompt jsonMode =>
      if jsonMode then Except.error "responseMimeType not supported"
      else Except.ok
        (if ("Return ONLY".data).isPrefixOf prompt.data then "J" else "B")
    jp := fun s =>
      if s = "J" then some ⟨some "A problem", some (.num 5)⟩ else none
    nonce1 := "n1"
    nonce2 := "n2"
    rType := 0
    rTopic1 := 0
    rTopic2 := 0
    rFallback := 0
    lastProblem := none
    newId := "id-1" }

set_option maxRecDepth 100000 in
/-- Witness for C4: with `envRetry`, the first candidate model's full
prompt yields unparseable output, the simplified retry succeeds, and
`generateOnce` resolves with the retry's payload from that same first
model. -/
theorem generate_retry_same_model_witness :
    generateOnce envRetry "n1" "t0" Difficulty.MEDIUM ProbType.ADDITION =
      .ok ⟨"A problem", 5, "J", "t0", "gemini-2.5-flash"⟩ := by
  unfold generateOnce MODEL_CANDIDATES
  exact generate_retry_same_model envRetry "n1" "t0" Difficulty.MEDIUM
    ProbType.ADDITION "gemini-2.5-flash" ["gemini-1.5-flash", "gemini-1.5-flash-8b"]
    "B" "J" false false "A problem" 5 (by rfl) (by rfl) (by rfl) (by rfl)

end MPG.Claims

namespace MPG.Claims

open MPG.Generate

/-- C7: when a previous stored problem exists (nonempty `L`) and the first
generation succeeds with text `g.problem_text`, `POST /generate` retries
exactly when the generated text equals the previous one (after `trim`):
on a match, exactly one retry happens, with a topic hint drawn from the
topics excluding the first one (hence distinct from it); otherwise a
single generation call is made. -/
theorem generate_dedupe_exact_retry (env : Env) (bd bt : Option String)
    (L : String) (g : GenResult)
    (hlast : env.lastProblem = some L) (hL : L ≠ "")
    (hfirst : generateOnce env env.nonce1 (pick TOPICS none env.rTopic1 "")
      (requestDifficulty bd) (requestProbType env bt) = .ok g)
    (h0 : 0 ≤ env.rTopic2) (h1 : env.rTopic2 < 1) :
    (jsTrim g.problem_text = jsTrim L →
      (postGenerate env bd bt).genTopics =
        [pick TOPICS none env.rTopic1 "",
         pick TOPICS (some (pick TOPICS none env.rTopic1 "")) env.rTopic2 ""] ∧
      pick TOPICS (some (pick TOPICS none env.rTopic1 "")) env.rTopic2 "" ≠
        pick TOPICS none env.rTopic1 "") ∧
    (jsTrim g.problem_text ≠ jsTrim L →
      (postGenerate env bd bt).genTopics =
        [pick TOPICS none env.rTopic1 ""]) := by
  have hfil : TOPICS.filter
      (fun x => x ≠ pick TOPICS none env.rTopic1 "") ≠ [] := by
    by_cases hh : pick TOPICS none env.rTopic1 "" =
        "whole numbers (multi-step word problems)"
    · apply List.ne_nil_of_mem
        (a := "fractions (addition/subtraction with unlike denominators)")
      apply List.mem_filter.mpr
      refine ⟨by simp [TOPICS], ?_⟩
      rw [hh]
      decide
    · apply List.ne_nil_of_mem
        (a := "whole numbers (multi-step word problems)")
      apply List.mem_filter.mpr
      refine ⟨by simp [TOPICS], ?_⟩
      simpa using fun hhh => hh hhh.symm
  constructor
  · intro hmatch
    have hcond : (match env.lastProblem with
        | some lp => decide (lp ≠ "") && decide (jsTrim g.problem_text = jsTrim lp)
        | none => false) = true := by
      rw [hlast]
      simp [hL, hmatch]
    refine ⟨?_, pick_exclude_ne TOPICS _ env.rTopic2 "" h0 h1 hfil⟩
    simp only [postGenerate, hfirst, hcond, if_true]
    cases hsecond : generateOnce env env.nonce2
        (pick TOPICS (some (pick TOPICS none env.rTopic1 "")) env.rTopic2 "")
        (requestDifficulty bd) (requestProbType env bt) with
    | error e => rfl
    | ok g2 => rfl
  · intro hdiff
    have hcond : (match env.lastProblem with
        | some lp => decide (lp ≠ "") && decide (jsTrim g.problem_text = jsTrim lp)
        | none => false) = false := by
      rw [hlast]
      simp [hdiff]
    simp only [postGenerate, hfirst, hcond, if_false]
    rfl

end MPG.Claims

namespace MPG.Claims

open MPG.Generate

/-- A provider that always returns the valid payload `"J"`, whose parsed
problem text exactly equals the previously stored problem, forcing the
de-dupe retry. -/
def envDup : Env :=
  { provider := fun _ _ _ => Except.ok "J"
    jp := fun s =>
      if s = "J" then some ⟨some "A problem", some (.num 5)⟩ else none
    nonce1 := "n1"
    nonce2 := "n2"
    rType := 0
    rTopic1 := 0
    rTopic2 := 0
    rFallback := 0
    lastProblem := some "A problem"
    newId := "id-1" }

/-- Witness for C7: with `envDup` the generated text matches the stored
previous problem, so exactly two generation calls occur and the second
topic hint differs from the first. -/
theorem generate_dedupe_exact_retry_witness :
    (postGenerate envDup (some "MEDIUM") (some "ADDITION")).genTopics =
      [pick TOPICS none envDup.rTopic1 "",
       pick TOPICS (some (pick TOPICS none envDup.rTopic1 "")) envDup.rTopic2 ""] ∧
    pick TOPICS (some (pick TOPICS none envDup.rTopic1 "")) envDup.rTopic2 "" ≠
      pick TOPICS none envDup.rTopic1 "" :=
  (generate_dedupe_exact_retry envDup (some "MEDIUM") (some "ADDITION")
    "A problem"
    ⟨"A problem", 5, "J", pick TOPICS none envDup.rTopic1 "",
      "gemini-2.5-flash"⟩
    rfl (by decide) (by rfl) (by norm_num [envDup]) (by norm_num [envDup])).1
    rfl

end MPG.Claims
